import Mathlib

/-!
Shallow embedding of the receipt backend (`src/main.py`, schemas in
`src/schemas.py`): a FastAPI service over a MongoDB store that issues
sequentially numbered receipts.  Python ints are modelled as `Int`,
Python floats as `Rat` (exact arithmetic), UTC instants as an abstract
`Int` clock value passed to the creating operation, and the MongoDB
collections as explicit state (`AppState`).  Each HTTP endpoint becomes
a function from state (plus request data) to a result paired with the
successor state.
-/

namespace ReceiptApp

/-- Brand information (`class Brand` in `main.py`): name plus optional
phone and logo URL. -/
structure Brand where
  name : String
  phone : Option String
  logo_url : Option String
deriving DecidableEq, Repr

/-- The fixed process-wide brand constant `BRAND` from `main.py`. -/
def BRAND : Brand :=
  { name := "VELLIXAO"
    phone := some "085706400133"
    logo_url := some "https://files.catbox.moe/a9u0pd.png" }

/-- A receipt line item (`class ReceiptItem`): name, integer quantity
(pydantic constraint `ge=1`, default 1) and price (`ge=0`). -/
structure ReceiptItem where
  name : String
  quantity : Int
  price : Rat
deriving DecidableEq, Repr

/-- Request body of `POST /api/receipts` (`class ReceiptCreate`):
optional customer name, a list of items (default empty), optional
notes.  There is no brand field. -/
structure ReceiptCreate where
  customer_name : Option String
  items : List ReceiptItem
  notes : Option String
deriving DecidableEq, Repr

/-- A persisted/returned receipt (`class ReceiptOut`, identical to the
document `doc` built in `create_receipt`). -/
structure Receipt where
  number : Int
  brand : Brand
  customer_name : Option String
  items : List ReceiptItem
  notes : Option String
  subtotal : Rat
  total : Rat
  created_at : Int
  updated_at : Int
deriving DecidableEq, Repr

/-- The single counter document of the `counters` collection
(`{_id: "receipt_number", seq: ...}`); the `seq` field may in
principle be absent, which the Python code guards against. -/
structure CounterDoc where
  seq : Option Int
deriving DecidableEq, Repr

/-- The mutable state visible to the endpoints: whether `db` is
configured (`db is None` in Python when not), the counter document of
the `counters` collection (`none` when it does not exist yet), and the
`receipt` collection in insertion (natural) order. -/
structure AppState where
  configured : Bool
  counter : Option CounterDoc
  receipts : List Receipt
deriving DecidableEq, Repr

/-- The current value of the persisted sequence counter: 0 when the
counter document does not exist or has no `seq` field. -/
def seqOf (c : Option CounterDoc) : Int :=
  (c.bind CounterDoc.seq).getD 0

/-- The counter value `seqOf` of a state's counter document. -/
def seqVal (st : AppState) : Int :=
  seqOf st.counter

/-- MongoDB semantics of
`find_one_and_update({_id}, {$inc: {seq: 1}}, upsert=True,
return_document=AFTER)`: if no counter document exists, upsert creates
one with `seq = 1` (`$inc` on a missing field treats it as 0); if one
exists, its `seq` is incremented (created at 1 when the field was
absent).  Returns the post-update document together with the new store
state; with upsert and AFTER the returned document is always present. -/
def find_one_and_update_inc (c : Option CounterDoc) :
    Option CounterDoc × Option CounterDoc :=
  let newDoc : CounterDoc := ⟨some ((c.bind CounterDoc.seq).getD 0 + 1)⟩
  (some newDoc, some newDoc)

/-- Function `_get_next_receipt_number` from `main.py` (the `db is None` guard
is handled by the callers, see `create_receipt`): atomically increments
the counter and returns its new value, with the two defensive fallback
branches of the Python code (returned document missing, `seq` field
missing) translated as written — both insert/set the counter to 1 and
return 1.  Result: allocated number paired with the new counter
state. -/
def _get_next_receipt_number (c : Option CounterDoc) :
    Int × Option CounterDoc :=
  match find_one_and_update_inc c with
  | (none, _) => (1, some ⟨some 1⟩)
  | (some d, st1) =>
    match d.seq with
    | none => (1, some ⟨some 1⟩)
    | some s => (s, st1)

/-- Function `_compute_totals` from `main.py`:
`float(sum(i.quantity * i.price for i in items))`. -/
def _compute_totals (items : List ReceiptItem) : Rat :=
  (items.map fun i => (i.quantity : Rat) * i.price).sum

/-- The pydantic field constraints of `ReceiptItem`
(`quantity ge=1`, `price ge=0`), enforced by FastAPI while parsing the
request body, before the endpoint function runs. -/
def itemValid (i : ReceiptItem) : Bool :=
  decide (1 ≤ i.quantity) && decide (0 ≤ i.price)

/-- Error outcomes of the endpoints: `invalidInput` is FastAPI's 422
validation rejection, `serviceUnavailable` the
`HTTPException(500, "Database not configured")`, `notFound` the 404
responses. -/
inductive ApiError where
  | invalidInput
  | serviceUnavailable
  | notFound
deriving DecidableEq, Repr

/-- Endpoint `POST /api/receipts` (`create_receipt` in `main.py`), including the
framework's request-body validation, which rejects any item violating
the field constraints before the handler body runs.  The handler then
checks `db is None`, allocates the next number, computes totals, builds
the document with `created_at = updated_at = now`, inserts it into the
`receipt` collection and returns it. -/
def create_receipt (st : AppState) (payload : ReceiptCreate) (now : Int) :
    Except ApiError Receipt × AppState :=
  if payload.items.all itemValid then
    if st.configured then
      let alloc := _get_next_receipt_number st.counter
      let number := alloc.1
      let items := payload.items
      let subtotal := _compute_totals items
      let total := subtotal
      let doc : Receipt :=
        { number := number
          brand := BRAND
          customer_name := payload.customer_name
          items := items
          notes := payload.notes
          subtotal := subtotal
          total := total
          created_at := now
          updated_at := now }
      (Except.ok doc,
        { st with counter := alloc.2, receipts := st.receipts ++ [doc] })
    else (Except.error ApiError.serviceUnavailable, st)
  else (Except.error ApiError.invalidInput, st)

/-- Descending-by-number comparison used to model
`sort("number", -1)`. -/
def receiptGe (a b : Receipt) : Prop :=
  b.number ≤ a.number

instance : DecidableRel receiptGe :=
  fun a b => inferInstanceAs (Decidable (b.number ≤ a.number))

instance : IsTotal Receipt receiptGe :=
  ⟨fun a b => le_total b.number a.number⟩

instance : IsTrans Receipt receiptGe :=
  ⟨fun _ _ _ h1 h2 => le_trans h2 h1⟩

/-- The `receipt` collection sorted by `number` descending, as produced
by `find().sort("number", -1)`. -/
def sortByNumberDesc (rs : List Receipt) : List Receipt :=
  List.insertionSort receiptGe rs

/-- MongoDB `cursor.limit(n)` semantics: `n = 0` means no limit, a
negative `n` behaves like its absolute value. -/
def applyMongoLimit (n : Int) (l : List Receipt) : List Receipt :=
  if n = 0 then l else l.take n.natAbs

/-- Endpoint `GET /api/receipts/latest` (`get_latest_receipt`): after the
`db is None` guard, `find_one(sort=[("number", -1)])` returns the first
document in descending number order, 404 when the collection is
empty. -/
def get_latest_receipt (st : AppState) :
    Except ApiError Receipt × AppState :=
  if st.configured then
    match (sortByNumberDesc st.receipts).head? with
    | none => (Except.error ApiError.notFound, st)
    | some doc => (Except.ok doc, st)
  else (Except.error ApiError.serviceUnavailable, st)

/-- Endpoint `GET /api/receipts/x` (`get_receipt_by_number`, path parameter `number`): after the
`db is None` guard, `find_one({"number": number})` returns the first
document in natural order whose number matches, 404 when none does. -/
def get_receipt_by_number (st : AppState) (number : Int) :
    Except ApiError Receipt × AppState :=
  if st.configured then
    match st.receipts.find? (fun r => r.number == number) with
    | none => (Except.error ApiError.notFound, st)
    | some doc => (Except.ok doc, st)
  else (Except.error ApiError.serviceUnavailable, st)

/-- Endpoint `GET /api/receipts?limit=N` (`list_receipts`, default limit 20):
after the `db is None` guard, returns
`find().sort("number", -1).limit(limit)` as a list. -/
def list_receipts (st : AppState) (limit : Int := 20) :
    Except ApiError (List Receipt) × AppState :=
  if st.configured then
    (Except.ok (applyMongoLimit limit (sortByNumberDesc st.receipts)), st)
  else (Except.error ApiError.serviceUnavailable, st)

/-- The data-dependent operations of the API, used to describe
arbitrary sequences of calls. -/
inductive Op where
  | create (payload : ReceiptCreate) (now : Int)
  | latest
  | byNumber (n : Int)
  | listRecent (limit : Int)
deriving Repr

/-- The state after performing one operation (its response is
discarded). -/
def applyOp (st : AppState) : Op → AppState
  | Op.create p now => (create_receipt st p now).2
  | Op.latest => (get_latest_receipt st).2
  | Op.byNumber n => (get_receipt_by_number st n).2
  | Op.listRecent l => (list_receipts st l).2

/-- The state at process start: no counter document, no receipts; `c`
records whether the database is configured. -/
def initState (c : Bool) : AppState :=
  { configured := c, counter := none, receipts := [] }

/-- States reachable from a fresh store by some sequence of API
operations. -/
def Reachable (st : AppState) : Prop :=
  ∃ (c : Bool) (ops : List Op), st = ops.foldl applyOp (initState c)

/-- Running the sequence allocator `n` times in a row: the list of
allocated numbers together with the final counter state. -/
def allocRun : Nat → Option CounterDoc → List Int × Option CounterDoc
  | 0, c => ([], c)
  | n + 1, c =>
    let step := _get_next_receipt_number c
    let rest := allocRun n step.2
    (step.1 :: rest.1, rest.2)

/-- The receipt a successful `create_receipt` call on state `st`
constructs (used to state lemmas; see `create_ok_shape`). -/
def newReceipt (st : AppState) (p : ReceiptCreate) (now : Int) : Receipt :=
  { number := seqVal st + 1
    brand := BRAND
    customer_name := p.customer_name
    items := p.items
    notes := p.notes
    subtotal := _compute_totals p.items
    total := _compute_totals p.items
    created_at := now
    updated_at := now }

/-- The invariant maintained by every API operation: receipt numbers
are strictly increasing in insertion order, and every persisted number
is at most the current counter value. -/
def Inv (st : AppState) : Prop :=
  (st.receipts.map Receipt.number).Pairwise (· < ·) ∧
  ∀ r ∈ st.receipts, r.number ≤ seqVal st

/-! ### Helper lemmas -/

/-- The allocator always returns the old counter value plus one and
stores that value back; the defensive fallback branches of the Python
code are unreachable under the modelled MongoDB semantics. -/
theorem get_next_eq (c : Option CounterDoc) :
    _get_next_receipt_number c = (seqOf c + 1, some ⟨some (seqOf c + 1)⟩) :=
  rfl

/-- Reading via `get_latest_receipt` never changes the state. -/
theorem get_latest_state (st : AppState) : (get_latest_receipt st).2 = st := by
  unfold get_latest_receipt
  split
  · cases (sortByNumberDesc st.receipts).head? <;> rfl
  · rfl

/-- Reading via `get_receipt_by_number` never changes the state. -/
theorem get_by_number_state (st : AppState) (n : Int) :
    (get_receipt_by_number st n).2 = st := by
  unfold get_receipt_by_number
  split
  · cases st.receipts.find? (fun r => r.number == n) <;> rfl
  · rfl

/-- Reading via `list_receipts` never changes the state. -/
theorem list_receipts_state (st : AppState) (limit : Int) :
    (list_receipts st limit).2 = st := by
  unfold list_receipts
  split <;> rfl


/-- Evaluating `create_receipt` on a valid payload with a configured
database: it returns `newReceipt st p now` and appends it to the store,
persisting the incremented counter. -/
theorem create_receipt_ok_eval (st : AppState) (p : ReceiptCreate)
    (now : Int) (hv : p.items.all itemValid = true)
    (hcfg : st.configured = true) :
    create_receipt st p now =
      (Except.ok (newReceipt st p now),
        { configured := st.configured
          counter := some ⟨some (seqVal st + 1)⟩
          receipts := st.receipts ++ [newReceipt st p now] }) := by
  unfold create_receipt
  rw [hv, hcfg]
  rfl

/-- Whenever `create_receipt` does not succeed, the state (counter
included) is left unchanged. -/
theorem create_receipt_cases (st : AppState) (p : ReceiptCreate)
    (now : Int) :
    (create_receipt st p now).2 = st ∨
    ∃ r, (create_receipt st p now).1 = Except.ok r := by
  unfold create_receipt
  split
  · split
    · right; exact ⟨_, rfl⟩
    · left; rfl
  · left; rfl

/-- On an error result `create_receipt` leaves the state unchanged. -/
theorem create_error_state (st : AppState) (p : ReceiptCreate) (now : Int)
    (e : ApiError) (h : (create_receipt st p now).1 = Except.error e) :
    (create_receipt st p now).2 = st := by
  rcases create_receipt_cases st p now with hc | ⟨r, hr⟩
  · exact hc
  · rw [h] at hr; exact absurd hr (by simp)

/-- Anatomy of a successful `create_receipt` call: the payload was
valid, the database configured, the returned receipt is
`newReceipt st p now`, and the new state stores the incremented counter
and appends exactly that receipt. -/
theorem create_ok_shape (st : AppState) (p : ReceiptCreate) (now : Int)
    (r : Receipt) (st' : AppState)
    (h : create_receipt st p now = (Except.ok r, st')) :
    p.items.all itemValid = true ∧ st.configured = true ∧
    r = newReceipt st p now ∧
    st' = { configured := st.configured
            counter := some ⟨some (seqVal st + 1)⟩
            receipts := st.receipts ++ [r] } := by
  have hv : p.items.all itemValid = true := by
    by_contra hv
    rw [Bool.not_eq_true] at hv
    unfold create_receipt at h
    rw [hv] at h
    exact absurd (congrArg Prod.fst h) (by simp)
  have hcfg : st.configured = true := by
    by_contra hcfg
    rw [Bool.not_eq_true] at hcfg
    unfold create_receipt at h
    rw [hv, hcfg] at h
    exact absurd (congrArg Prod.fst h) (by simp)
  rw [create_receipt_ok_eval st p now hv hcfg] at h
  simp only [Prod.mk.injEq, Except.ok.injEq] at h
  obtain ⟨h1, h2⟩ := h
  exact ⟨hv, hcfg, h1.symm, by rw [← h2, h1]⟩

/-- Projections of `newReceipt`. -/
theorem newReceipt_number (st : AppState) (p : ReceiptCreate) (now : Int) :
    (newReceipt st p now).number = seqVal st + 1 :=
  rfl

/-- The fresh state satisfies the invariant. -/
theorem inv_init (c : Bool) : Inv (initState c) := by
  constructor
  · exact List.Pairwise.nil
  · intro r hr
    exact absurd hr (List.not_mem_nil r)

/-- Every API operation preserves the invariant. -/
theorem inv_applyOp (st : AppState) (op : Op) (h : Inv st) :
    Inv (applyOp st op) := by
  cases op with
  | latest => rw [applyOp, get_latest_state]; exact h
  | byNumber n => rw [applyOp, get_by_number_state]; exact h
  | listRecent l => rw [applyOp, list_receipts_state]; exact h
  | create p now =>
    rw [applyOp]
    rcases hres : (create_receipt st p now).1 with e | r
    · rw [create_error_state st p now e hres]; exact h
    · have hc : create_receipt st p now =
          (Except.ok r, (create_receipt st p now).2) := by
        rw [← hres]
      obtain ⟨hv, hcfg, hr, hst⟩ := create_ok_shape st p now r _ hc
      rw [hst]
      constructor
      · simp only [List.map_append, List.map_cons, List.map_nil]
        rw [List.pairwise_append]
        refine ⟨h.1, List.pairwise_singleton _ _, ?_⟩
        intro a ha b hb
        simp only [List.mem_singleton] at hb
        subst hb
        obtain ⟨x, hx, rfl⟩ := List.mem_map.mp ha
        have hle := h.2 x hx
        rw [hr, newReceipt_number]
        omega
      · intro x hx
        show x.number ≤ seqVal st + 1
        rcases List.mem_append.mp hx with hx | hx
        · have := h.2 x hx
          omega
        · simp only [List.mem_singleton] at hx
          subst hx
          rw [hr, newReceipt_number]

/-- Every reachable state satisfies the invariant. -/
theorem reachable_inv (st : AppState) (h : Reachable st) : Inv st := by
  obtain ⟨c, ops, rfl⟩ := h
  suffices hgen : ∀ (ops : List Op) (s : AppState), Inv s →
      Inv (ops.foldl applyOp s) by
    exact hgen ops (initState c) (inv_init c)
  intro ops
  induction ops with
  | nil => intro s hs; exact hs
  | cons o rest ih =>
    intro s hs
    exact ih (applyOp s o) (inv_applyOp s o hs)

/-- Running the allocator `n` times starting from a counter holding
`s` yields `s + 1, s + 2, ..., s + n` and leaves the counter at
`s + n`. -/
theorem allocRun_some_eq (n : Nat) : ∀ s : Int,
    allocRun n (some ⟨some s⟩) =
      ((List.range n).map (fun i : Nat => s + 1 + (i : Int)),
        some ⟨some (s + n)⟩) := by
  induction n with
  | zero =>
    intro s
    simp [allocRun]
  | succ k ih =>
    intro s
    have hstep : _get_next_receipt_number (some ⟨some s⟩) =
        (s + 1, some ⟨some (s + 1)⟩) := rfl
    simp only [allocRun, hstep, ih (s + 1), Prod.mk.injEq]
    constructor
    · rw [List.range_succ_eq_map, List.map_cons, List.map_map]
      congr 1
      · push_cast
        ring
      · apply List.map_congr_left
        intro i _
        simp only [Function.comp_apply]
        push_cast
        ring
    · have h2 : s + 1 + (k : Int) = s + ((k : Nat) + 1 : Nat) := by
        push_cast
        ring
      rw [h2]

/-- C1: starting from a store with no counter record, `n` successive
calls to `_get_next_receipt_number` return exactly `1, 2, ..., n` in
order (the first call creates the counter and yields 1, each later
call one more than the previous), and the persisted counter value
never decreases across any API operation. -/
theorem claim_C1_sequence_allocator :
    (∀ n : Nat, (allocRun n none).1 =
      (List.range n).map (fun i : Nat => (i : Int) + 1)) ∧
    ∀ (st : AppState) (op : Op), seqVal st ≤ seqVal (applyOp st op) := by
  constructor
  · intro n
    cases n with
    | zero => rfl
    | succ k =>
      have hstep : _get_next_receipt_number none = (1, some ⟨some 1⟩) := rfl
      simp only [allocRun, hstep, allocRun_some_eq k 1]
      rw [List.range_succ_eq_map, List.map_cons, List.map_map]
      norm_num
      intro a _
      omega
  · intro st op
    cases op with
    | latest => rw [applyOp, get_latest_state]
    | byNumber n => rw [applyOp, get_by_number_state]
    | listRecent l => rw [applyOp, list_receipts_state]
    | create p now =>
      rw [applyOp]
      rcases hres : (create_receipt st p now).1 with e | r
      · rw [create_error_state st p now e hres]
      · have hc : create_receipt st p now =
            (Except.ok r, (create_receipt st p now).2) := by
          rw [← hres]
        obtain ⟨_, _, _, hst⟩ := create_ok_shape st p now r _ hc
        rw [hst]
        show seqVal st ≤ seqVal st + 1
        omega

/-- A sample valid request used to exercise the theorems on concrete
data. -/
def demoPayload : ReceiptCreate :=
  { customer_name := some "Alice"
    items := [{ name := "A", quantity := 2, price := 10 },
              { name := "B", quantity := 1, price := 5 }]
    notes := none }

/-- A configured fresh state. -/
def demoState : AppState :=
  initState true

/-- The receipt created by `demoPayload` on the fresh state at
instant 7. -/
def demoReceipt : Receipt :=
  newReceipt demoState demoPayload 7

/-- The state after that creation. -/
def demoStatePost : AppState :=
  { configured := true
    counter := some ⟨some 1⟩
    receipts := [demoReceipt] }

/-- A request whose single item has quantity 0 (violating the
`ge=1` constraint). -/
def invalidPayload : ReceiptCreate :=
  { customer_name := none
    items := [{ name := "X", quantity := 0, price := 1 }]
    notes := none }

/-- C2: for every item list accepted by `create_receipt`, the
receipt's subtotal equals the sum over all items of
quantity times price, the total equals the subtotal, and an empty item
list yields subtotal 0. -/
theorem claim_C2_totals (st : AppState) (p : ReceiptCreate) (now : Int)
    (r : Receipt) (h : (create_receipt st p now).1 = Except.ok r) :
    r.subtotal = (p.items.map fun i => (i.quantity : Rat) * i.price).sum ∧
    r.total = r.subtotal ∧
    (p.items = [] → r.subtotal = 0) := by
  have hc : create_receipt st p now =
      (Except.ok r, (create_receipt st p now).2) := by
    rw [← h]
  obtain ⟨_, _, hr, _⟩ := create_ok_shape st p now r _ hc
  subst hr
  refine ⟨rfl, rfl, ?_⟩
  intro hemp
  simp [newReceipt, _compute_totals, hemp]

/-- Witness for C2 at a concrete input. -/
theorem claim_C2_totals_witness :
    demoReceipt.subtotal =
      (demoPayload.items.map fun i => (i.quantity : Rat) * i.price).sum ∧
    demoReceipt.total = demoReceipt.subtotal ∧
    (demoPayload.items = [] → demoReceipt.subtotal = 0) :=
  claim_C2_totals demoState demoPayload 7 demoReceipt rfl

/-- C3: a request containing an item with quantity below 1 or negative
price is rejected with `invalidInput` before any sequence number is
allocated, and the whole state (sequence counter included) is
unchanged. -/
theorem claim_C3_invalid_items (st : AppState) (p : ReceiptCreate)
    (now : Int) (h : ∃ i ∈ p.items, i.quantity < 1 ∨ i.price < 0) :
    (create_receipt st p now).1 = Except.error ApiError.invalidInput ∧
    (create_receipt st p now).2 = st := by
  have hv : p.items.all itemValid = false := by
    rw [← Bool.not_eq_true]
    intro hall
    obtain ⟨i, hi, hbad⟩ := h
    have hok := List.all_eq_true.mp hall i hi
    rw [itemValid, Bool.and_eq_true, decide_eq_true_eq,
      decide_eq_true_eq] at hok
    rcases hbad with hb | hb
    · omega
    · exact absurd hok.2 (not_le.mpr hb)
  unfold create_receipt
  rw [hv]
  exact ⟨rfl, rfl⟩

/-- Witness for C3 at a concrete input: an item with quantity 0. -/
theorem claim_C3_invalid_items_witness :
    (create_receipt demoState invalidPayload 3).1 =
      Except.error ApiError.invalidInput ∧
    (create_receipt demoState invalidPayload 3).2 = demoState :=
  claim_C3_invalid_items demoState invalidPayload 3
    ⟨{ name := "X", quantity := 0, price := 1 },
      List.mem_cons_self _ _, Or.inl (by norm_num)⟩

/-- C8: every successful creation stamps `created_at` and `updated_at`
with the same instant, and no API operation ever modifies or removes a
persisted receipt (the store only grows by appending), so `updated_at`
never changes after creation. -/
theorem claim_C8_timestamps :
    (∀ (st : AppState) (p : ReceiptCreate) (now : Int) (r : Receipt)
      (st2 : AppState), create_receipt st p now = (Except.ok r, st2) →
      r.created_at = now ∧ r.updated_at = now) ∧
    ∀ (st : AppState) (op : Op),
      ∃ tl, (applyOp st op).receipts = st.receipts ++ tl := by
  constructor
  · intro st p now r st2 h
    obtain ⟨_, _, hr, _⟩ := create_ok_shape st p now r st2 h
    subst hr
    exact ⟨rfl, rfl⟩
  · intro st op
    cases op with
    | latest =>
      rw [applyOp, get_latest_state]
      exact ⟨[], (List.append_nil _).symm⟩
    | byNumber n =>
      rw [applyOp, get_by_number_state]
      exact ⟨[], (List.append_nil _).symm⟩
    | listRecent l =>
      rw [applyOp, list_receipts_state]
      exact ⟨[], (List.append_nil _).symm⟩
    | create p now =>
      rw [applyOp]
      rcases hres : (create_receipt st p now).1 with e | r
      · rw [create_error_state st p now e hres]
        exact ⟨[], (List.append_nil _).symm⟩
      · have hc : create_receipt st p now =
            (Except.ok r, (create_receipt st p now).2) := by
          rw [← hres]
        obtain ⟨_, _, _, hst⟩ := create_ok_shape st p now r _ hc
        rw [hst]
        exact ⟨[r], rfl⟩

/-- Witness for C8 at a concrete input. -/
theorem claim_C8_timestamps_witness :
    demoReceipt.created_at = 7 ∧ demoReceipt.updated_at = 7 :=
  claim_C8_timestamps.1 demoState demoPayload 7 demoReceipt demoStatePost
    (by rfl)

/-- C9: the brand of every created receipt is exactly the process
constant `BRAND`, whatever the request body (which has no brand
field). -/
theorem claim_C9_brand_constant (st : AppState) (p : ReceiptCreate)
    (now : Int) (r : Receipt)
    (h : (create_receipt st p now).1 = Except.ok r) :
    r.brand = BRAND ∧ BRAND.name = "VELLIXAO" ∧
    BRAND.phone = some "085706400133" ∧
    BRAND.logo_url = some "https://files.catbox.moe/a9u0pd.png" := by
  have hc : create_receipt st p now =
      (Except.ok r, (create_receipt st p now).2) := by
    rw [← h]
  obtain ⟨_, _, hr, _⟩ := create_ok_shape st p now r _ hc
  subst hr
  exact ⟨rfl, rfl, rfl, rfl⟩

/-- Witness for C9 at a concrete input. -/
theorem claim_C9_brand_constant_witness :
    demoReceipt.brand = BRAND ∧ BRAND.name = "VELLIXAO" ∧
    BRAND.phone = some "085706400133" ∧
    BRAND.logo_url = some "https://files.catbox.moe/a9u0pd.png" :=
  claim_C9_brand_constant demoState demoPayload 7 demoReceipt rfl

/-- C10: the document persisted by a successful creation is exactly
the receipt returned to the caller — the new store content is the old
one with the returned receipt appended, so every field of the inserted
document agrees with the response. -/
theorem claim_C10_persisted_equals_returned (st : AppState)
    (p : ReceiptCreate) (now : Int) (r : Receipt) (st2 : AppState)
    (h : create_receipt st p now = (Except.ok r, st2)) :
    st2.receipts = st.receipts ++ [r] := by
  obtain ⟨_, _, _, hst⟩ := create_ok_shape st p now r st2 h
  rw [hst]

/-- Witness for C10 at a concrete input. -/
theorem claim_C10_persisted_equals_returned_witness :
    demoStatePost.receipts = demoState.receipts ++ [demoReceipt] :=
  claim_C10_persisted_equals_returned demoState demoPayload 7 demoReceipt
    demoStatePost (by rfl)

/-- Evaluation of `get_latest_receipt` on a configured store. -/
theorem get_latest_eval (st : AppState) (hcfg : st.configured = true) :
    (get_latest_receipt st).1 =
      match (sortByNumberDesc st.receipts).head? with
      | none => Except.error ApiError.notFound
      | some doc => Except.ok doc := by
  unfold get_latest_receipt
  rw [hcfg]
  cases (sortByNumberDesc st.receipts).head? <;> rfl

/-- C5: on a configured store, `get_latest_receipt` fails with
`notFound` when no receipts exist, and on any non-empty store returns
a persisted receipt whose number is maximal among all persisted
receipts. -/
theorem claim_C5_latest_is_max (st : AppState)
    (hcfg : st.configured = true) :
    (st.receipts = [] →
      (get_latest_receipt st).1 = Except.error ApiError.notFound) ∧
    (st.receipts ≠ [] → ∃ r, (get_latest_receipt st).1 = Except.ok r ∧
      r ∈ st.receipts ∧ ∀ s ∈ st.receipts, s.number ≤ r.number) := by
  have hperm : List.Perm (sortByNumberDesc st.receipts) st.receipts :=
    List.perm_insertionSort receiptGe st.receipts
  have hsorted : List.Sorted receiptGe (sortByNumberDesc st.receipts) :=
    List.sorted_insertionSort receiptGe st.receipts
  simp only [get_latest_eval st hcfg]
  constructor
  · intro hemp
    have hnil : sortByNumberDesc st.receipts = [] :=
      List.Perm.eq_nil (hemp ▸ hperm)
    rw [hnil]
    rfl
  · intro hne
    have hne2 : sortByNumberDesc st.receipts ≠ [] := by
      intro hnil
      exact hne (List.Perm.eq_nil ((hnil ▸ hperm).symm))
    obtain ⟨a, l, hal⟩ := List.exists_cons_of_ne_nil hne2
    refine ⟨a, ?_, ?_, ?_⟩
    · rw [hal]
      rfl
    · have ha : a ∈ sortByNumberDesc st.receipts := by
        rw [hal]
        exact List.mem_cons_self a l
      exact hperm.mem_iff.mp ha
    · intro s hs
      have hs2 : s ∈ sortByNumberDesc st.receipts := hperm.mem_iff.mpr hs
      rw [hal] at hs2
      rcases List.mem_cons.mp hs2 with rfl | hs3
      · exact le_refl _
      · exact (List.sorted_cons.mp (hal ▸ hsorted)).1 s hs3

/-- Witness for C5 at a concrete input: a store holding one receipt. -/
theorem claim_C5_latest_is_max_witness :
    ∃ r, (get_latest_receipt demoStatePost).1 = Except.ok r ∧
      r ∈ demoStatePost.receipts ∧
      ∀ s ∈ demoStatePost.receipts, s.number ≤ r.number :=
  (claim_C5_latest_is_max demoStatePost rfl).2 (List.cons_ne_nil _ _)

/-- C4: on any reachable state, `list_receipts` with a positive limit
returns at most `limit` receipts, ordered strictly descending by
number. -/
theorem claim_C4_list_limit (st : AppState) (hst : Reachable st)
    (limit : Int) (hlim : 0 < limit) (rs : List Receipt)
    (h : (list_receipts st limit).1 = Except.ok rs) :
    (rs.length : Int) ≤ limit ∧
    rs.Pairwise (fun a b => b.number < a.number) := by
  obtain ⟨hpair, _⟩ := reachable_inv st hst
  have hcfg : st.configured = true := by
    by_contra hc
    rw [Bool.not_eq_true] at hc
    unfold list_receipts at h
    rw [hc] at h
    simp at h
  unfold list_receipts at h
  rw [hcfg, if_pos rfl] at h
  have hrs : applyMongoLimit limit (sortByNumberDesc st.receipts) = rs :=
    Except.ok.inj h
  subst hrs
  have hlim0 : ¬ (limit = 0) := by omega
  constructor
  · rw [applyMongoLimit, if_neg hlim0]
    have hlen :
        (List.take limit.natAbs (sortByNumberDesc st.receipts)).length ≤
          limit.natAbs :=
      List.length_take_le _ _
    have habs : ((limit.natAbs : Nat) : Int) = limit :=
      Int.natAbs_of_nonneg (le_of_lt hlim)
    omega
  · have hsorted : List.Sorted receiptGe (sortByNumberDesc st.receipts) :=
      List.sorted_insertionSort receiptGe st.receipts
    have hperm : List.Perm (sortByNumberDesc st.receipts) st.receipts :=
      List.perm_insertionSort receiptGe st.receipts
    have hnodupR : (st.receipts.map Receipt.number).Nodup :=
      hpair.imp ne_of_lt
    have hnodupS :
        ((sortByNumberDesc st.receipts).map Receipt.number).Nodup :=
      ((hperm.map Receipt.number).nodup_iff).mpr hnodupR
    have hneS : (sortByNumberDesc st.receipts).Pairwise
        (fun a b => a.number ≠ b.number) :=
      List.pairwise_map.mp hnodupS
    have hgt : (sortByNumberDesc st.receipts).Pairwise
        (fun a b => b.number < a.number) :=
      (hsorted.and hneS).imp
        (fun hab => lt_of_le_of_ne hab.1 (Ne.symm hab.2))
    rw [applyMongoLimit, if_neg hlim0]
    exact hgt.sublist (List.take_sublist _ _)

/-- Witness for C4 at a concrete input: one receipt, limit 5. -/
theorem claim_C4_list_limit_witness :
    ((([demoReceipt] : List Receipt)).length : Int) ≤ 5 ∧
    ([demoReceipt] : List Receipt).Pairwise
      (fun a b => b.number < a.number) :=
  claim_C4_list_limit demoStatePost
    ⟨true, [Op.create demoPayload 7], rfl⟩ 5 (by norm_num) [demoReceipt]
    (by rfl)

/-- Lemma: `find?` skips a leading block on which the predicate is false. -/
theorem find?_append_of_none {α : Type} (p : α → Bool) (l1 l2 : List α)
    (h : ∀ x ∈ l1, p x = false) :
    (l1 ++ l2).find? p = l2.find? p := by
  induction l1 with
  | nil => rfl
  | cons a t ih =>
    have ha : ¬ (p a = true) := by
      rw [h a (List.mem_cons_self a t)]
      exact Bool.false_ne_true
    rw [List.cons_append, List.find?_cons_of_neg _ ha]
    exact ih (fun x hx => h x (List.mem_cons_of_mem a hx))

/-- Evaluation of `get_receipt_by_number` on a configured store. -/
theorem get_by_number_eval (st : AppState) (n : Int)
    (hcfg : st.configured = true) :
    (get_receipt_by_number st n).1 =
      match st.receipts.find? (fun r => r.number == n) with
      | none => Except.error ApiError.notFound
      | some doc => Except.ok doc := by
  unfold get_receipt_by_number
  rw [hcfg]
  cases st.receipts.find? (fun r => r.number == n) <;> rfl

/-- C6: after a successful `create_receipt` returning receipt `r` on a
reachable state, an immediate `get_receipt_by_number` with `r.number`
returns exactly `r` (hence a record equal to the response in every
field). -/
theorem claim_C6_get_after_create (st : AppState) (hst : Reachable st)
    (p : ReceiptCreate) (now : Int) (r : Receipt) (st2 : AppState)
    (h : create_receipt st p now = (Except.ok r, st2)) :
    (get_receipt_by_number st2 r.number).1 = Except.ok r := by
  obtain ⟨hv, hcfg, hr, hstE⟩ := create_ok_shape st p now r st2 h
  obtain ⟨_, hbound⟩ := reachable_inv st hst
  have hcfg2 : st2.configured = true := by
    rw [hstE]
    exact hcfg
  rw [get_by_number_eval st2 r.number hcfg2]
  have hrec : st2.receipts = st.receipts ++ [r] := by
    rw [hstE]
  rw [hrec]
  have hfalse : ∀ x ∈ st.receipts,
      (fun y : Receipt => y.number == r.number) x = false := by
    intro x hx
    have hle := hbound x hx
    have hne : x.number ≠ r.number := by
      rw [hr, newReceipt_number]
      omega
    simp only [beq_eq_false_iff_ne]
    exact hne
  rw [find?_append_of_none _ _ _ hfalse]
  have hfind : List.find? (fun y : Receipt => y.number == r.number) [r] =
      some r := by
    simp
  rw [hfind]

/-- Witness for C6 at a concrete input. -/
theorem claim_C6_get_after_create_witness :
    (get_receipt_by_number demoStatePost demoReceipt.number).1 =
      Except.ok demoReceipt :=
  claim_C6_get_after_create demoState ⟨true, [], rfl⟩ demoPayload 7
    demoReceipt demoStatePost (by rfl)

/-- Counterexample to C7 as stated: with the store unconfigured, a
`create_receipt` request whose item has quantity 0 is rejected by the
framework validation with `invalidInput` (HTTP 422), not with the
`serviceUnavailable` (HTTP 500) error the claim asserts for every
data-dependent operation. -/
theorem claim_C7_counterexample :
    (create_receipt (initState false) invalidPayload 0).1 =
      Except.error ApiError.invalidInput ∧
    (create_receipt (initState false) invalidPayload 0).1 ≠
      Except.error ApiError.serviceUnavailable := by
  constructor
  · rfl
  · intro hcon
    have h1 : (create_receipt (initState false) invalidPayload 0).1 =
        Except.error ApiError.invalidInput := rfl
    rw [h1] at hcon
    exact absurd hcon (by simp)

/-- C7 (amended): when the store is unconfigured, `get_latest_receipt`,
`get_receipt_by_number` and `list_receipts` fail with
`serviceUnavailable` leaving the state unchanged, and so does
`create_receipt` for every payload that passes item validation; a
payload failing validation is instead rejected with `invalidInput`
(state also unchanged). -/
theorem claim_C7_unconfigured (st : AppState)
    (hcfg : st.configured = false) :
    (∀ (p : ReceiptCreate) (now : Int), p.items.all itemValid = true →
      create_receipt st p now =
        (Except.error ApiError.serviceUnavailable, st)) ∧
    get_latest_receipt st =
      (Except.error ApiError.serviceUnavailable, st) ∧
    (∀ n : Int, get_receipt_by_number st n =
      (Except.error ApiError.serviceUnavailable, st)) ∧
    (∀ l : Int, list_receipts st l =
      (Except.error ApiError.serviceUnavailable, st)) ∧
    (∀ (p : ReceiptCreate) (now : Int), p.items.all itemValid = false →
      create_receipt st p now =
        (Except.error ApiError.invalidInput, st)) := by
  refine ⟨?_, ?_, ?_, ?_, ?_⟩
  · intro p now hv
    unfold create_receipt
    rw [hv, hcfg]
    rfl
  · unfold get_latest_receipt
    rw [hcfg]
    rfl
  · intro n
    unfold get_receipt_by_number
    rw [hcfg]
    rfl
  · intro l
    unfold list_receipts
    rw [hcfg]
    rfl
  · intro p now hv
    unfold create_receipt
    rw [hv]
    rfl

/-- Witness for the amended C7 at a concrete input. -/
theorem claim_C7_unconfigured_witness :
    create_receipt (initState false) demoPayload 0 =
      (Except.error ApiError.serviceUnavailable, initState false) ∧
    get_latest_receipt (initState false) =
      (Except.error ApiError.serviceUnavailable, initState false) ∧
    get_receipt_by_number (initState false) 1 =
      (Except.error ApiError.serviceUnavailable, initState false) ∧
    list_receipts (initState false) 20 =
      (Except.error ApiError.serviceUnavailable, initState false) :=
  ⟨(claim_C7_unconfigured (initState false) rfl).1 demoPayload 0 rfl,
    (claim_C7_unconfigured (initState false) rfl).2.1,
    (claim_C7_unconfigured (initState false) rfl).2.2.1 1,
    (claim_C7_unconfigured (initState false) rfl).2.2.2.1 20⟩

end ReceiptApp
